import Mathlib

/-!
# Verification of the slotted ALOHA simulator

A shallow embedding of `src/slotted_aloha_sim.py`.  The Python simulator is a
sequential slot loop: per-slot Bernoulli arrivals appended to a per-node FIFO
queue, a transmitter set (nodes whose head packet has zero backoff), a
cardinality-based collision resolver, binary exponential backoff on collision,
an end-of-slot backoff decrement applied to every node, and a final summary
(throughput, collision rate, average delay).

Randomness is modelled by an explicit stream: `Rng.floats` stands for the
successive values returned by `random.random()` and `Rng.nats` feeds
`random.randint`; a single position index threads through the run in the exact
order the Python code consumes draws, so a stream plays the role of a seed.
-/

/-- A packet, as built by `Packet.__init__`: creation slot, number of
collisions experienced so far, and remaining backoff slots. -/
structure Packet where
  created_slot : ℕ
  attempts : ℕ
  backoff : ℕ
deriving DecidableEq, Repr

/-- A node, as built by `Node.__init__`: an identifier and a FIFO queue of
packets (`collections.deque`; `append` at the back, `popleft` at the front). -/
structure Node where
  id : ℕ
  queue : List Packet
deriving DecidableEq, Repr

/-- The random source: one stream of floats (for `random.random()`) and one of
naturals (for `random.randint`), consumed at a shared position index. -/
structure Rng where
  floats : ℕ → ℚ
  nats : ℕ → ℕ

/-- The running counters held in the `stats` dictionary of `simulate_slots`. -/
structure Stats where
  successes : ℕ
  collisions : ℕ
  empty : ℕ
  delays : List ℤ
deriving DecidableEq, Repr

/-- The mutable simulation state: the node list, the counters, and the
position reached in the random stream. -/
structure SimState where
  nodes : List Node
  stats : Stats
  ridx : ℕ
deriving DecidableEq, Repr

/-- The configuration parameters of `simulate_slots`. -/
structure Config where
  num_nodes : ℕ
  num_slots : ℕ
  arrival_prob : ℚ
  max_backoff_exp : ℕ
deriving DecidableEq, Repr

/-- The summary dictionary returned by `simulate_slots`.  The Python
`float('nan')` placed in `avg_delay_slots` when no delay was recorded is
modelled by `none`. -/
structure Summary where
  slots : ℕ
  successes : ℕ
  collisions : ℕ
  empty_slots : ℕ
  throughput_per_slot : ℚ
  collision_rate_given_activity : ℚ
  avg_delay_slots : Option ℚ
deriving DecidableEq, Repr

/-- The only runtime fault the simulator can hit: the integer division
`successes / slots` in the summary raises `ZeroDivisionError` when the slot
count is zero.  There is no configuration-validation error in the code. -/
inductive SimError where
  | zeroDivision
deriving DecidableEq, Repr

/-- `Node.has_ready`: the queue is non-empty and its head has zero backoff. -/
def has_ready (n : Node) : Bool :=
  match n.queue with
  | [] => false
  | p :: _ => decide (p.backoff = 0)

/-- `Node.schedule_new_packet`: append a fresh packet to the node's queue.
Note that the append is unconditional: the Python method never checks whether
the node already holds a packet. -/
def schedule_new_packet (slot : ℕ) (n : Node) : Node :=
  { n with queue := n.queue ++ [⟨slot, 0, 0⟩] }

/-- `Node.on_collision`, acting on the head packet: increment `attempts`,
cap the exponent, and draw the new backoff.  `random.randint(1, window - 1)`
is modelled by `1 + draw % (window - 1)`, which ranges over exactly the
integers of `[1, window - 1]` as `draw` ranges over `ℕ`. -/
def on_collision (max_backoff_exp : ℕ) (draw : ℕ) (p : Packet) : Packet :=
  let attempts := p.attempts + 1
  let e := min attempts max_backoff_exp
  let window := 2 ^ e
  { p with
      attempts := attempts
      backoff := if 1 < window then 1 + draw % (window - 1) else 0 }

/-- `Node.tick_backoff`: decrement the head packet's backoff when positive;
do nothing on an empty queue or a zero backoff. -/
def tick_backoff (n : Node) : Node :=
  match n.queue with
  | [] => n
  | p :: q =>
      if 0 < p.backoff then { n with queue := { p with backoff := p.backoff - 1 } :: q }
      else n

/-- The arrival loop of `simulate_slots`: one `random.random()` draw per node,
in node order; a draw below `arrival_prob` appends a new packet.  Returns the
updated nodes and the advanced stream position. -/
def arrivalsPhase (rng : Rng) (arrival_prob : ℚ) (slot : ℕ) :
    List Node → ℕ → List Node × ℕ
  | [], i => ([], i)
  | n :: rest, i =>
      let n2 := if rng.floats i < arrival_prob then schedule_new_packet slot n else n
      let r := arrivalsPhase rng arrival_prob slot rest (i + 1)
      (n2 :: r.1, r.2)

/-- The success branch of `simulate_slots`: pop the head packet of the first
ready node (`transmitters[0]`) and record its delay `slot - created_slot + 1`.
Returns the updated nodes and the recorded delays (a singleton when a ready
node exists). -/
def successPhase (slot : ℕ) : List Node → List Node × List ℤ
  | [] => ([], [])
  | n :: rest =>
      match n.queue with
      | p :: q =>
          if p.backoff = 0 then
            ({ n with queue := q } :: rest, [(slot : ℤ) - (p.created_slot : ℤ) + 1])
          else
            let r := successPhase slot rest
            (n :: r.1, r.2)
      | [] =>
          let r := successPhase slot rest
          (n :: r.1, r.2)

/-- The collision branch of `simulate_slots`: every ready node's head packet
goes through `on_collision`, in node order.  A stream position is consumed
exactly when the Python conditional expression calls `random.randint`
(that is, when the capped window exceeds 1). -/
def collisionPhase (rng : Rng) (max_backoff_exp : ℕ) :
    List Node → ℕ → List Node × ℕ
  | [], i => ([], i)
  | n :: rest, i =>
      match n.queue with
      | p :: q =>
          if p.backoff = 0 then
            let consumed := if 1 < 2 ^ min (p.attempts + 1) max_backoff_exp then 1 else 0
            let r := collisionPhase rng max_backoff_exp rest (i + consumed)
            ({ n with queue := on_collision max_backoff_exp (rng.nats i) p :: q } :: r.1, r.2)
          else
            let r := collisionPhase rng max_backoff_exp rest i
            (n :: r.1, r.2)
      | [] =>
          let r := collisionPhase rng max_backoff_exp rest i
          (n :: r.1, r.2)

/-- The three per-slot outcomes of the `if/elif/else` chain of
`simulate_slots`. -/
inductive SlotClass where
  | emptySlot
  | successSlot
  | collisionSlot
deriving DecidableEq, Repr

/-- The per-slot classification implemented by the `if/elif/else` chain of
`simulate_slots`, as a function of the transmitter count: zero transmitters
give an empty slot, exactly one gives a success, two or more give a
collision. -/
def classify (k : ℕ) : SlotClass :=
  if k = 0 then SlotClass.emptySlot
  else if k = 1 then SlotClass.successSlot
  else SlotClass.collisionSlot

/-- The body of the slot loop after arrivals: filter the transmitters, branch
on their count, and update the counters exactly as `simulate_slots` does.
Returns the updated nodes, counters, and stream position. -/
def resolveSlot (rng : Rng) (max_backoff_exp : ℕ) (slot : ℕ)
    (ns : List Node) (i : ℕ) (st : Stats) : List Node × Stats × ℕ :=
  match classify (ns.filter has_ready).length with
  | SlotClass.emptySlot => (ns, { st with empty := st.empty + 1 }, i)
  | SlotClass.successSlot =>
      let r := successPhase slot ns
      (r.1, { st with successes := st.successes + 1, delays := st.delays ++ r.2 }, i)
  | SlotClass.collisionSlot =>
      let r := collisionPhase rng max_backoff_exp ns i
      (r.1, { st with collisions := st.collisions + 1 }, r.2)

/-- One full slot of `simulate_slots`: arrivals, resolution, then the
end-of-slot `tick_backoff` sweep over every node. -/
def slotStep (cfg : Config) (rng : Rng) (slot : ℕ) (s : SimState) : SimState :=
  let ar := arrivalsPhase rng cfg.arrival_prob slot s.nodes s.ridx
  let r := resolveSlot rng cfg.max_backoff_exp slot ar.1 ar.2 s.stats
  ⟨r.1.map tick_backoff, r.2.1, r.2.2⟩

/-- The slot loop `for slot in range(1, num_slots + 1)`: the first argument is
the current slot number, the second the number of slots still to run. -/
def runFrom (cfg : Config) (rng : Rng) : ℕ → ℕ → SimState → SimState
  | _, 0, s => s
  | slot, k + 1, s => runFrom cfg rng (slot + 1) k (slotStep cfg rng slot s)

/-- The initial state of `simulate_slots`: `num_nodes` idle nodes and zeroed
counters. -/
def initState (cfg : Config) : SimState :=
  ⟨(List.range cfg.num_nodes).map (fun i => ⟨i, []⟩), ⟨0, 0, 0, []⟩, 0⟩

/-- `simulate_slots`: run the slot loop, then build the summary.  The
division `successes / slots` faults when `num_slots = 0` (Python
`ZeroDivisionError`); the collision rate is guarded by its denominator check;
`statistics.mean` is guarded by the emptiness check on the delay list, the
`float('nan')` fallback being modelled by `none`. -/
def simulate_slots (cfg : Config) (rng : Rng) : Except SimError Summary :=
  let fin := runFrom cfg rng 1 cfg.num_slots (initState cfg)
  if cfg.num_slots = 0 then Except.error SimError.zeroDivision
  else
    Except.ok
      { slots := cfg.num_slots
        successes := fin.stats.successes
        collisions := fin.stats.collisions
        empty_slots := fin.stats.empty
        throughput_per_slot := (fin.stats.successes : ℚ) / (cfg.num_slots : ℚ)
        collision_rate_given_activity :=
          if 0 < (cfg.num_slots : ℤ) - (fin.stats.empty : ℤ) then
            (fin.stats.collisions : ℚ) / (((cfg.num_slots : ℤ) - (fin.stats.empty : ℤ) : ℤ) : ℚ)
          else 0
        avg_delay_slots :=
          if fin.stats.delays.isEmpty then none
          else some ((fin.stats.delays.sum : ℚ) / (fin.stats.delays.length : ℚ)) }

/-- Modelled from the spec: the propagation-aware collision resolver
(Policy B) is absent from `src/` — `simulate_slots` has no propagation
parameter and implements only the cardinality policy.  Following §4.3, each
transmitter occupies the half-open interval `[slot + p, slot + p + 1)` for its
propagation offset `p`, and two intervals collide iff
`start1 < end2 AND start2 < end1`. -/
def intervalsOverlap (s1 s2 : ℚ) : Bool :=
  decide (s1 < s2 + 1) && decide (s2 < s1 + 1)

/-- Modelled from the spec: under Policy B a transmitter succeeds iff its
occupancy interval overlaps no other transmitter's interval in the same slot.
`offsets` lists the propagation offsets of the slot's transmitters; the
transmitter at position `i` is compared against every other position. -/
def policyBSucceeds (slot : ℚ) (offsets : List ℚ) (i : ℕ) : Bool :=
  (List.range offsets.length).all fun j =>
    j == i || ! intervalsOverlap (slot + offsets.getD i 0) (slot + offsets.getD j 0)

/-- The all-zero random stream, used to exercise the simulator on concrete
runs: every arrival draw is `0` (so any positive arrival probability fires)
and every backoff draw is the smallest value of the window. -/
def rngZero : Rng := ⟨fun _ => 0, fun _ => 0⟩

/-- A two-node configuration that forces a collision in slot 1 under the
all-zero stream (`mkRat 1 2` keeps every evaluation kernel-computable). -/
def cfgTwoOne : Config := ⟨2, 1, mkRat 1 2, 1⟩

/-- A two-node, two-slot configuration under which every node receives an
arrival in every slot. -/
def cfgTwoTwo : Config := ⟨2, 2, mkRat 1 2, 1⟩

/-- A second description of the all-zero stream, pointwise equal to `rngZero`
but not syntactically identical. -/
def rngZeroPrime : Rng := ⟨fun i => 0 * (i : ℚ), fun i => 0 * i⟩

/-- Every packet held by one of the nodes was created no later than slot
`b`. -/
def createdBound (b : ℕ) (ns : List Node) : Prop :=
  ∀ n ∈ ns, ∀ p ∈ n.queue, p.created_slot ≤ b

/-- A one-node, one-slot configuration: the node arrives in slot 1 and
succeeds immediately with delay 1. -/
def cfgOneOne : Config := ⟨1, 1, mkRat 1 2, 1⟩

/-- The summary of a zero-node, one-slot run: one empty slot, no successes,
no delay data. -/
def sampleSummary : Summary := ⟨1, 0, 0, 1, 0, 0, none⟩

/-- Claim C2 (counterexample): a node already holding a packet does receive a
new arrival.  With two nodes that both arrive in slot 1 and collide, both
still hold their packet at the start of slot 2; the slot-2 arrival draw fires
again and is appended, leaving each node with a queue of length 2.  This
contradicts the claim that a holding node never receives an arrival. -/
theorem arrival_appended_while_holding_cex :
    ((runFrom cfgTwoTwo rngZero 1 1 (initState cfgTwoTwo)).nodes.map fun n => n.queue.length)
      = [1, 1]
    ∧ ((runFrom cfgTwoTwo rngZero 1 2 (initState cfgTwoTwo)).nodes.map fun n => n.queue.length)
      = [2, 2] := by
  decide

/-- Claim C2 (amended): the arrival generator is unconditional.  Every node
gets one Bernoulli draw per slot regardless of its queue, and a successful
draw appends a fresh packet to the back of the node's FIFO queue, so a node
can hold several outstanding packets. -/
theorem arrivals_are_unconditional :
    (∀ (slot : ℕ) (n : Node),
        (schedule_new_packet slot n).queue = n.queue ++ [⟨slot, 0, 0⟩])
    ∧ (∀ (rng : Rng) (prob : ℚ) (slot : ℕ) (n : Node) (rest : List Node) (i : ℕ),
        rng.floats i < prob →
        (arrivalsPhase rng prob slot (n :: rest) i).1.head?
          = some (schedule_new_packet slot n))
    ∧ (∀ (rng : Rng) (prob : ℚ) (slot : ℕ) (ns : List Node) (i : ℕ),
        (arrivalsPhase rng prob slot ns i).2 = i + ns.length) := by
  refine ⟨fun _ _ => rfl, fun rng prob slot n rest i h => ?_, fun rng prob slot ns => ?_⟩
  · simp [arrivalsPhase, h]
  · induction ns with
    | nil => intro i; simp [arrivalsPhase]
    | cons n rest ih =>
        intro i
        simp only [arrivalsPhase, ih (i + 1), List.length_cons]
        omega

/-- Witness for the amended C2: a node that already holds a packet created in
slot 1 receives the slot-2 arrival as well. -/
theorem arrivals_are_unconditional_witness :
    (arrivalsPhase rngZero (mkRat 1 2) 2 [⟨0, [⟨1, 0, 0⟩]⟩] 0).1.head?
      = some (schedule_new_packet 2 ⟨0, [⟨1, 0, 0⟩]⟩) :=
  arrivals_are_unconditional.2.1 rngZero (mkRat 1 2) 2 ⟨0, [⟨1, 0, 0⟩]⟩ [] 0 (by decide)

/-- Claim C3: all randomness is drawn from the single threaded stream, and two
runs with the same configuration and the same stream (the seed determines the
stream) produce identical summaries. -/
theorem identical_seed_identical_summary (cfg : Config) (r1 r2 : Rng)
    (hf : ∀ i, r1.floats i = r2.floats i) (hn : ∀ i, r1.nats i = r2.nats i) :
    simulate_slots cfg r1 = simulate_slots cfg r2 := by
  obtain ⟨f1, n1⟩ := r1
  obtain ⟨f2, n2⟩ := r2
  have h1 : f1 = f2 := funext hf
  have h2 : n1 = n2 := funext hn
  subst h1
  subst h2
  rfl

/-- Witness for C3 at a concrete configuration and two pointwise-equal
streams. -/
theorem identical_seed_identical_summary_witness :
    simulate_slots cfgTwoTwo rngZero = simulate_slots cfgTwoTwo rngZeroPrime :=
  identical_seed_identical_summary cfgTwoTwo rngZero rngZeroPrime
    (fun i => (zero_mul (i : ℚ)).symm) (fun i => (Nat.zero_mul i).symm)

/-- Claim C4: on a collision the head packet's `attempts` is incremented, the
exponent is capped at `max_backoff_exp`, the new backoff lies in
`[1, window - 1]` when the window exceeds 1 (every such value being reachable
by some draw) and is 0 when the window is 1, and the backoff never exceeds
`2 ^ max_backoff_exp - 1`. -/
theorem backoff_controller_contract (max_backoff_exp draw : ℕ) (p : Packet) :
    (on_collision max_backoff_exp draw p).attempts = p.attempts + 1
    ∧ (1 < 2 ^ min (p.attempts + 1) max_backoff_exp →
        1 ≤ (on_collision max_backoff_exp draw p).backoff
        ∧ (on_collision max_backoff_exp draw p).backoff
            ≤ 2 ^ min (p.attempts + 1) max_backoff_exp - 1)
    ∧ (2 ^ min (p.attempts + 1) max_backoff_exp = 1 →
        (on_collision max_backoff_exp draw p).backoff = 0)
    ∧ (on_collision max_backoff_exp draw p).backoff ≤ 2 ^ max_backoff_exp - 1
    ∧ (∀ b, 1 ≤ b → b ≤ 2 ^ min (p.attempts + 1) max_backoff_exp - 1 →
        (on_collision max_backoff_exp (b - 1) p).backoff = b) := by
  have hwle : 2 ^ min (p.attempts + 1) max_backoff_exp ≤ 2 ^ max_backoff_exp :=
    Nat.pow_le_pow_right (by norm_num) (min_le_right _ _)
  refine ⟨rfl, fun hw => ?_, fun hw => ?_, ?_, fun b hb1 hb2 => ?_⟩
  · have hmod : draw % (2 ^ min (p.attempts + 1) max_backoff_exp - 1)
        < 2 ^ min (p.attempts + 1) max_backoff_exp - 1 := Nat.mod_lt _ (by omega)
    simp only [on_collision, hw, if_true]
    omega
  · simp only [on_collision, hw]
    norm_num
  · by_cases hw : 1 < 2 ^ min (p.attempts + 1) max_backoff_exp
    · have hmod : draw % (2 ^ min (p.attempts + 1) max_backoff_exp - 1)
          < 2 ^ min (p.attempts + 1) max_backoff_exp - 1 := Nat.mod_lt _ (by omega)
      simp only [on_collision, hw, if_true]
      omega
    · simp only [on_collision, hw, if_false]
      omega
  · have hw : 1 < 2 ^ min (p.attempts + 1) max_backoff_exp := by omega
    have hmod : (b - 1) % (2 ^ min (p.attempts + 1) max_backoff_exp - 1) = b - 1 :=
      Nat.mod_eq_of_lt (by omega)
    simp only [on_collision, hw, if_true, hmod]
    omega

/-- Witness for C4 at concrete packets: a first collision with cap 2 yields
attempts 1 and backoff 1 (the only value of the window `[1, 1]` for draw 0),
cap 0 yields backoff 0, and the global bound holds. -/
theorem backoff_controller_contract_witness :
    (on_collision 2 0 ⟨0, 0, 0⟩).attempts = 1
    ∧ 1 ≤ (on_collision 2 0 ⟨0, 0, 0⟩).backoff
    ∧ (on_collision 0 0 ⟨0, 0, 0⟩).backoff = 0
    ∧ (on_collision 2 0 ⟨0, 0, 0⟩).backoff ≤ 2 ^ 2 - 1
    ∧ (on_collision 2 0 ⟨0, 0, 0⟩).backoff = 1 := by
  refine ⟨(backoff_controller_contract 2 0 ⟨0, 0, 0⟩).1,
    ((backoff_controller_contract 2 0 ⟨0, 0, 0⟩).2.1 (by decide)).1,
    (backoff_controller_contract 0 0 ⟨0, 0, 0⟩).2.2.1 (by decide),
    (backoff_controller_contract 2 0 ⟨0, 0, 0⟩).2.2.2.1,
    (backoff_controller_contract 2 0 ⟨0, 0, 0⟩).2.2.2.2 1 (by decide) (by decide)⟩

/-- Claim C5 (counterexample): a node whose backoff was just (re)assigned in
the current slot IS decremented in that same slot.  In the forced two-node
collision of slot 1 (window `2^1`, draw 0) the assigned backoff is 1, yet at
the end of slot 1 both nodes carry backoff 0: the end-of-slot sweep
decremented the freshly assigned value, contradicting the claimed
exception. -/
theorem fresh_backoff_decremented_same_slot_cex :
    (on_collision 1 (rngZero.nats 2) ⟨1, 0, 0⟩).backoff = 1
    ∧ ((runFrom cfgTwoOne rngZero 1 1 (initState cfgTwoOne)).nodes.map
        fun n => n.queue.map fun p => (p.attempts, p.backoff)) = [[(1, 0)], [(1, 0)]] := by
  decide

/-- Claim C5 (amended): the end-of-slot sweep applies `tick_backoff` to every
node, with no exception for nodes that transmitted in the current slot: any
head packet with positive backoff — including one just assigned by
`on_collision` — is decremented by exactly 1, and zero backoffs and empty
queues are untouched. -/
theorem end_of_slot_decrement_applies_to_all :
    (∀ (cfg : Config) (rng : Rng) (slot : ℕ) (s : SimState),
        (slotStep cfg rng slot s).nodes =
          ((resolveSlot rng cfg.max_backoff_exp slot
              (arrivalsPhase rng cfg.arrival_prob slot s.nodes s.ridx).1
              (arrivalsPhase rng cfg.arrival_prob slot s.nodes s.ridx).2 s.stats).1).map
            tick_backoff)
    ∧ (∀ (i : ℕ) (p : Packet) (q : List Packet), 0 < p.backoff →
        (tick_backoff ⟨i, p :: q⟩).queue = { p with backoff := p.backoff - 1 } :: q)
    ∧ (∀ (i : ℕ) (p : Packet) (q : List Packet), p.backoff = 0 →
        tick_backoff ⟨i, p :: q⟩ = ⟨i, p :: q⟩)
    ∧ (∀ i : ℕ, tick_backoff (⟨i, []⟩ : Node) = ⟨i, []⟩) := by
  refine ⟨fun _ _ _ _ => rfl, fun i p q h => ?_, fun i p q h => ?_, fun i => rfl⟩
  · simp [tick_backoff, h]
  · simp [tick_backoff, h]

/-- Witness for the amended C5: a freshly assigned backoff of 1 is ticked to
0, a zero backoff stays, an empty queue stays. -/
theorem end_of_slot_decrement_applies_to_all_witness :
    (tick_backoff ⟨0, [⟨1, 1, 1⟩]⟩).queue = [⟨1, 1, 0⟩]
    ∧ tick_backoff ⟨0, [⟨1, 1, 0⟩]⟩ = ⟨0, [⟨1, 1, 0⟩]⟩
    ∧ tick_backoff (⟨7, []⟩ : Node) = ⟨7, []⟩ :=
  ⟨end_of_slot_decrement_applies_to_all.2.1 0 ⟨1, 1, 1⟩ [] (by decide),
   end_of_slot_decrement_applies_to_all.2.2.1 0 ⟨1, 1, 0⟩ [] rfl,
   end_of_slot_decrement_applies_to_all.2.2.2 7⟩

/-- Claim C6 (counterexample): no fail-fast validation exists.  With
`num_nodes = 0` (violating N > 0) and `arrival_prob = 2` (outside `[0, 1)`),
the simulator runs to completion and returns a normal summary instead of an
`InvalidConfiguration` error — the error type of the code has no such
constructor at all. -/
theorem no_invalid_configuration_error_cex :
    (simulate_slots ⟨0, 1, 2, 3⟩ rngZero).isOk = true := by
  decide

/-- Claim C6 (amended): the simulator performs no configuration validation.
Every configuration with a nonzero slot count — including nonpositive node
counts and arrival probabilities outside `[0, 1)` — runs to completion and
returns a summary; a zero slot count is not rejected up front either but
faults only at the `successes / slots` division after the loop. -/
theorem no_configuration_validation :
    (∀ (cfg : Config) (rng : Rng), cfg.num_slots ≠ 0 →
        (simulate_slots cfg rng).isOk = true)
    ∧ (∀ (cfg : Config) (rng : Rng), cfg.num_slots = 0 →
        simulate_slots cfg rng = Except.error SimError.zeroDivision) := by
  constructor
  · intro cfg rng h
    simp [simulate_slots, h, Except.isOk, Except.toBool]
  · intro cfg rng h
    simp [simulate_slots, h]

/-- Witness for the amended C6: an invalid configuration (zero nodes,
arrival probability 2) is accepted, and a zero slot count faults at the
summary division. -/
theorem no_configuration_validation_witness :
    (simulate_slots ⟨0, 3, 2, 3⟩ rngZero).isOk = true
    ∧ simulate_slots ⟨0, 0, 2, 3⟩ rngZero = Except.error SimError.zeroDivision :=
  ⟨no_configuration_validation.1 ⟨0, 3, 2, 3⟩ rngZero (by decide),
   no_configuration_validation.2 ⟨0, 0, 2, 3⟩ rngZero rfl⟩

/-- In a list of `k` zero offsets, every lookup yields 0. -/
lemma getD_replicate_zero (k j : ℕ) : (List.replicate k (0:ℚ)).getD j 0 = 0 := by
  induction k generalizing j with
  | zero => simp [List.getD]
  | succ k ih =>
      cases j with
      | zero => simp [List.replicate]
      | succ j => simp [List.replicate, ih j]

/-- An occupancy interval always overlaps itself. -/
lemma intervalsOverlap_self (x : ℚ) : intervalsOverlap x x = true := by
  simp [intervalsOverlap]

/-- The source's slot classification marks a slot successful exactly when
there is one transmitter. -/
lemma classify_eq_success_iff (k : ℕ) : classify k = SlotClass.successSlot ↔ k = 1 := by
  unfold classify
  rcases k with _ | _ | k <;> simp

/-- Claim C1: with `propagation_max = 0` every propagation offset is 0, all
occupancy intervals of a slot coincide, and the spec-modelled Policy B
resolver classifies each of the `k` transmitters as successful exactly when
the source's cardinality classification (`classify`, the `if/elif/else` chain
of `simulate_slots`) declares the slot a success, i.e. when `k = 1`.  Policy B
with zero propagation therefore reproduces Policy A's success/collision
classification for every slot. -/
theorem policyB_zero_propagation_matches_policyA (slot : ℚ) (k i : ℕ) (h : i < k) :
    (policyBSucceeds slot (List.replicate k 0) i = true
      ↔ classify k = SlotClass.successSlot) := by
  rw [classify_eq_success_iff]
  unfold policyBSucceeds
  simp only [List.length_replicate, getD_replicate_zero, intervalsOverlap_self,
    Bool.not_true, Bool.or_false, List.all_eq_true, List.mem_range, beq_iff_eq]
  constructor
  · intro hall
    by_contra hk
    have h2 : 2 ≤ k := by omega
    have h0 := hall 0 (by omega)
    have h1 := hall 1 (by omega)
    omega
  · intro hk j hj
    omega

/-- Witness for C1: a lone transmitter with zero offset succeeds under
Policy B, and with two zero-offset transmitters the first one collides. -/
theorem policyB_zero_propagation_matches_policyA_witness :
    policyBSucceeds 0 (List.replicate 1 0) 0 = true
    ∧ policyBSucceeds 0 (List.replicate 2 0) 0 = false := by
  refine ⟨(policyB_zero_propagation_matches_policyA 0 1 0 (by decide)).mpr (by decide), ?_⟩
  have h := policyB_zero_propagation_matches_policyA 0 2 0 (by decide)
  rw [show classify 2 = SlotClass.collisionSlot from rfl] at h
  simp only [iff_false, reduceCtorEq] at h
  simp only [Bool.not_eq_true] at h
  exact h

lemma classify_of_two_le {k : ℕ} (h : 2 ≤ k) : classify k = SlotClass.collisionSlot := by
  have h0 : k ≠ 0 := by omega
  have h1 : k ≠ 1 := by omega
  simp [classify, h0, h1]

lemma resolveSlot_of_none (rng : Rng) (m slot : ℕ) (ns : List Node) (i : ℕ) (st : Stats)
    (h : (ns.filter has_ready).length = 0) :
    resolveSlot rng m slot ns i st = (ns, { st with empty := st.empty + 1 }, i) := by
  unfold resolveSlot
  rw [h]
  rfl

lemma resolveSlot_of_one (rng : Rng) (m slot : ℕ) (ns : List Node) (i : ℕ) (st : Stats)
    (h : (ns.filter has_ready).length = 1) :
    resolveSlot rng m slot ns i st
      = ((successPhase slot ns).1,
         { st with successes := st.successes + 1,
                   delays := st.delays ++ (successPhase slot ns).2 }, i) := by
  unfold resolveSlot
  rw [h]
  rfl

lemma resolveSlot_of_many (rng : Rng) (m slot : ℕ) (ns : List Node) (i : ℕ) (st : Stats)
    (h : 2 ≤ (ns.filter has_ready).length) :
    resolveSlot rng m slot ns i st
      = ((collisionPhase rng m ns i).1,
         { st with collisions := st.collisions + 1 }, (collisionPhase rng m ns i).2) := by
  unfold resolveSlot
  rw [classify_of_two_le h]

lemma resolveSlot_total (rng : Rng) (m slot : ℕ) (ns : List Node) (i : ℕ) (st : Stats) :
    (resolveSlot rng m slot ns i st).2.1.empty + (resolveSlot rng m slot ns i st).2.1.successes
      + (resolveSlot rng m slot ns i st).2.1.collisions
      = st.empty + st.successes + st.collisions + 1 := by
  by_cases h0 : (ns.filter has_ready).length = 0
  · rw [resolveSlot_of_none rng m slot ns i st h0]
    simp; omega
  · by_cases h1 : (ns.filter has_ready).length = 1
    · rw [resolveSlot_of_one rng m slot ns i st h1]
      simp; omega
    · rw [resolveSlot_of_many rng m slot ns i st (by omega)]
      simp; omega

lemma slotStep_total (cfg : Config) (rng : Rng) (slot : ℕ) (s : SimState) :
    (slotStep cfg rng slot s).stats.empty + (slotStep cfg rng slot s).stats.successes
      + (slotStep cfg rng slot s).stats.collisions
      = s.stats.empty + s.stats.successes + s.stats.collisions + 1 :=
  resolveSlot_total rng cfg.max_backoff_exp slot
    (arrivalsPhase rng cfg.arrival_prob slot s.nodes s.ridx).1
    (arrivalsPhase rng cfg.arrival_prob slot s.nodes s.ridx).2 s.stats

lemma runFrom_total (cfg : Config) (rng : Rng) : ∀ (k slot : ℕ) (s : SimState),
    (runFrom cfg rng slot k s).stats.empty + (runFrom cfg rng slot k s).stats.successes
      + (runFrom cfg rng slot k s).stats.collisions
      = s.stats.empty + s.stats.successes + s.stats.collisions + k := by
  intro k
  induction k with
  | zero => intro slot s; simp [runFrom]
  | succ k ih =>
      intro slot s
      simp only [runFrom]
      have h1 := ih (slot + 1) (slotStep cfg rng slot s)
      have h2 := slotStep_total cfg rng slot s
      omega

lemma successPhase_delays_length (slot : ℕ) : ∀ ns : List Node,
    0 < (ns.filter has_ready).length → (successPhase slot ns).2.length = 1 := by
  intro ns
  induction ns with
  | nil => intro h; simp at h
  | cons n rest ih =>
      intro h
      rcases hq : n.queue with _ | ⟨p, q⟩
      · have hr : has_ready n = false := by simp [has_ready, hq]
        simp only [successPhase, hq]
        apply ih
        simpa [List.filter_cons, hr] using h
      · by_cases hb : p.backoff = 0
        · simp [successPhase, hq, hb]
        · have hr : has_ready n = false := by simp [has_ready, hq, hb]
          simp only [successPhase, hq, hb, if_false]
          apply ih
          simpa [List.filter_cons, hr] using h

lemma slotStep_delays_len (cfg : Config) (rng : Rng) (slot : ℕ) (s : SimState)
    (h : s.stats.delays.length = s.stats.successes) :
    (slotStep cfg rng slot s).stats.delays.length = (slotStep cfg rng slot s).stats.successes := by
  show (resolveSlot rng cfg.max_backoff_exp slot
      (arrivalsPhase rng cfg.arrival_prob slot s.nodes s.ridx).1
      (arrivalsPhase rng cfg.arrival_prob slot s.nodes s.ridx).2 s.stats).2.1.delays.length
    = (resolveSlot rng cfg.max_backoff_exp slot
      (arrivalsPhase rng cfg.arrival_prob slot s.nodes s.ridx).1
      (arrivalsPhase rng cfg.arrival_prob slot s.nodes s.ridx).2 s.stats).2.1.successes
  by_cases h0 : (((arrivalsPhase rng cfg.arrival_prob slot s.nodes s.ridx).1).filter has_ready).length = 0
  · rw [resolveSlot_of_none _ _ _ _ _ _ h0]
    simpa using h
  · by_cases h1 : (((arrivalsPhase rng cfg.arrival_prob slot s.nodes s.ridx).1).filter has_ready).length = 1
    · rw [resolveSlot_of_one _ _ _ _ _ _ h1]
      have hl : (successPhase slot
          (arrivalsPhase rng cfg.arrival_prob slot s.nodes s.ridx).1).2.length = 1 :=
        successPhase_delays_length slot _ (by omega)
      simp [hl, h]
    · rw [resolveSlot_of_many _ _ _ _ _ _ (by omega)]
      simpa using h

lemma runFrom_delays_len (cfg : Config) (rng : Rng) : ∀ (k slot : ℕ) (s : SimState),
    s.stats.delays.length = s.stats.successes →
    (runFrom cfg rng slot k s).stats.delays.length
      = (runFrom cfg rng slot k s).stats.successes := by
  intro k
  induction k with
  | zero => intro slot s h; simpa [runFrom] using h
  | succ k ih =>
      intro slot s h
      simp only [runFrom]
      exact ih (slot + 1) _ (slotStep_delays_len cfg rng slot s h)

lemma collisionPhase_cons_empty (rng : Rng) (m idn : ℕ) (rest : List Node) (i : ℕ) :
    collisionPhase rng m (⟨idn, []⟩ :: rest) i
      = (⟨idn, []⟩ :: (collisionPhase rng m rest i).1, (collisionPhase rng m rest i).2) := by
  simp [collisionPhase]

lemma collisionPhase_cons_ready (rng : Rng) (m idn : ℕ) (p : Packet) (q : List Packet)
    (rest : List Node) (i : ℕ) (hb : p.backoff = 0) :
    collisionPhase rng m (⟨idn, p :: q⟩ :: rest) i
      = (⟨idn, on_collision m (rng.nats i) p :: q⟩
           :: (collisionPhase rng m rest
                (i + if 1 < 2 ^ min (p.attempts + 1) m then 1 else 0)).1,
         (collisionPhase rng m rest
            (i + if 1 < 2 ^ min (p.attempts + 1) m then 1 else 0)).2) := by
  simp [collisionPhase, hb]

lemma collisionPhase_cons_wait (rng : Rng) (m idn : ℕ) (p : Packet) (q : List Packet)
    (rest : List Node) (i : ℕ) (hb : ¬ p.backoff = 0) :
    collisionPhase rng m (⟨idn, p :: q⟩ :: rest) i
      = (⟨idn, p :: q⟩ :: (collisionPhase rng m rest i).1, (collisionPhase rng m rest i).2) := by
  simp [collisionPhase, hb]

set_option maxHeartbeats 1000000 in
lemma collisionPhase_getD (rng : Rng) (m : ℕ) : ∀ (ns : List Node) (i j : ℕ),
    has_ready (ns.getD j ⟨0, []⟩) = true →
    ∃ d, ((collisionPhase rng m ns i).1.getD j ⟨0, []⟩).queue.head?
          = ((ns.getD j ⟨0, []⟩).queue.head?).map (on_collision m d)
      ∧ ((collisionPhase rng m ns i).1.getD j ⟨0, []⟩).queue.tail
          = (ns.getD j ⟨0, []⟩).queue.tail
      ∧ ((collisionPhase rng m ns i).1.getD j ⟨0, []⟩).id = (ns.getD j ⟨0, []⟩).id := by
  intro ns
  induction ns with
  | nil =>
      intro i j h
      simp [List.getD, has_ready] at h
  | cons n rest ih =>
      obtain ⟨idn, nq⟩ := n
      intro i j h
      cases nq with
      | nil =>
          cases j with
          | zero => simp [List.getD_cons_zero, has_ready] at h
          | succ j =>
              have h2 : has_ready (rest.getD j ⟨0, []⟩) = true := by
                simpa [List.getD_cons_succ] using h
              rw [collisionPhase_cons_empty]
              simp only [List.getD_cons_succ]
              exact ih i j h2
      | cons p q =>
          by_cases hb : p.backoff = 0
          · cases j with
            | zero =>
                refine ⟨rng.nats i, ?_, ?_, ?_⟩ <;>
                  rw [collisionPhase_cons_ready rng m idn p q rest i hb] <;>
                  simp [List.getD_cons_zero]
            | succ j =>
                have h2 : has_ready (rest.getD j ⟨0, []⟩) = true := by
                  simpa [List.getD_cons_succ] using h
                rw [collisionPhase_cons_ready rng m idn p q rest i hb]
                simp only [List.getD_cons_succ]
                exact ih _ j h2
          · cases j with
            | zero => simp [List.getD_cons_zero, has_ready, hb] at h
            | succ j =>
                have h2 : has_ready (rest.getD j ⟨0, []⟩) = true := by
                  simpa [List.getD_cons_succ] using h
                rw [collisionPhase_cons_wait rng m idn p q rest i hb]
                simp only [List.getD_cons_succ]
                exact ih i j h2

/-- Claim C7: every slot falls in exactly one branch of `resolveSlot`, so over
a whole run `empty + successes + collisions = num_slots` (successes and
collisions counting exactly the slots with at least one transmitter); a slot
with exactly one ready transmitter bumps only the success counter; a slot with
two or more bumps the collision counter by exactly one regardless of the
transmitter count, and every ready node's head packet goes through
`on_collision`. -/
theorem slot_classification_trichotomy :
    (∀ (cfg : Config) (rng : Rng),
        (runFrom cfg rng 1 cfg.num_slots (initState cfg)).stats.empty
          + (runFrom cfg rng 1 cfg.num_slots (initState cfg)).stats.successes
          + (runFrom cfg rng 1 cfg.num_slots (initState cfg)).stats.collisions
          = cfg.num_slots)
    ∧ (∀ (rng : Rng) (m slot : ℕ) (ns : List Node) (i : ℕ) (st : Stats),
        (ns.filter has_ready).length = 0 →
        resolveSlot rng m slot ns i st = (ns, { st with empty := st.empty + 1 }, i))
    ∧ (∀ (rng : Rng) (m slot : ℕ) (ns : List Node) (i : ℕ) (st : Stats),
        (ns.filter has_ready).length = 1 →
        resolveSlot rng m slot ns i st
          = ((successPhase slot ns).1,
             { st with successes := st.successes + 1,
                       delays := st.delays ++ (successPhase slot ns).2 }, i))
    ∧ (∀ (rng : Rng) (m slot : ℕ) (ns : List Node) (i : ℕ) (st : Stats),
        2 ≤ (ns.filter has_ready).length →
        resolveSlot rng m slot ns i st
          = ((collisionPhase rng m ns i).1,
             { st with collisions := st.collisions + 1 }, (collisionPhase rng m ns i).2))
    ∧ (∀ (rng : Rng) (m : ℕ) (ns : List Node) (i j : ℕ),
        has_ready (ns.getD j ⟨0, []⟩) = true →
        ∃ d, ((collisionPhase rng m ns i).1.getD j ⟨0, []⟩).queue.head?
              = ((ns.getD j ⟨0, []⟩).queue.head?).map (on_collision m d)
          ∧ ((collisionPhase rng m ns i).1.getD j ⟨0, []⟩).queue.tail
              = (ns.getD j ⟨0, []⟩).queue.tail
          ∧ ((collisionPhase rng m ns i).1.getD j ⟨0, []⟩).id
              = (ns.getD j ⟨0, []⟩).id) := by
  refine ⟨fun cfg rng => ?_, resolveSlot_of_none, resolveSlot_of_one,
    resolveSlot_of_many, collisionPhase_getD⟩
  have h := runFrom_total cfg rng cfg.num_slots 1 (initState cfg)
  simpa [initState] using h

/-- Witness for C7 at concrete inputs: a forced-collision run with counter
sum 1, and the three `resolveSlot` branches evaluated on explicit node
lists. -/
theorem slot_classification_trichotomy_witness :
    ((runFrom cfgTwoOne rngZero 1 1 (initState cfgTwoOne)).stats.empty
        + (runFrom cfgTwoOne rngZero 1 1 (initState cfgTwoOne)).stats.successes
        + (runFrom cfgTwoOne rngZero 1 1 (initState cfgTwoOne)).stats.collisions = 1)
    ∧ resolveSlot rngZero 1 1 [] 0 ⟨0, 0, 0, []⟩ = ([], ⟨0, 0, 1, []⟩, 0)
    ∧ resolveSlot rngZero 1 1 [⟨0, [⟨1, 0, 0⟩]⟩] 0 ⟨0, 0, 0, []⟩
        = ([⟨0, []⟩], ⟨1, 0, 0, [1]⟩, 0)
    ∧ resolveSlot rngZero 1 1 [⟨0, [⟨1, 0, 0⟩]⟩, ⟨1, [⟨1, 0, 0⟩]⟩] 0 ⟨0, 0, 0, []⟩
        = ([⟨0, [⟨1, 1, 1⟩]⟩, ⟨1, [⟨1, 1, 1⟩]⟩], ⟨0, 1, 0, []⟩, 2)
    ∧ ((collisionPhase rngZero 1 [⟨0, [⟨1, 0, 0⟩]⟩, ⟨1, [⟨1, 0, 0⟩]⟩] 0).1.getD 0
        ⟨0, []⟩).queue.head? = some ⟨1, 1, 1⟩ := by
  refine ⟨slot_classification_trichotomy.1 cfgTwoOne rngZero,
    slot_classification_trichotomy.2.1 rngZero 1 1 [] 0 ⟨0, 0, 0, []⟩ rfl,
    slot_classification_trichotomy.2.2.1 rngZero 1 1 [⟨0, [⟨1, 0, 0⟩]⟩] 0 ⟨0, 0, 0, []⟩
      (by decide),
    (slot_classification_trichotomy.2.2.2.1 rngZero 1 1
        [⟨0, [⟨1, 0, 0⟩]⟩, ⟨1, [⟨1, 0, 0⟩]⟩] 0 ⟨0, 0, 0, []⟩ (by decide)).trans (by decide),
    ?_⟩
  obtain ⟨d, hd, -, -⟩ := slot_classification_trichotomy.2.2.2.2 rngZero 1
    [⟨0, [⟨1, 0, 0⟩]⟩, ⟨1, [⟨1, 0, 0⟩]⟩] 0 0 (by decide)
  rw [hd]
  simp [on_collision, Nat.mod_one]

/-- Claim C10: after every slot of a run the recorded delay list has exactly
as many entries as the success counter — each success appends exactly one
delay and nothing else appends — so the reported `avg_delay_slots` is the mean
over exactly `successes` samples. -/
theorem delays_track_successes (cfg : Config) (rng : Rng) (k : ℕ) :
    (runFrom cfg rng 1 k (initState cfg)).stats.delays.length
      = (runFrom cfg rng 1 k (initState cfg)).stats.successes :=
  runFrom_delays_len cfg rng k 1 (initState cfg) rfl

lemma createdBound_mono {b b2 : ℕ} (h : b ≤ b2) {ns : List Node}
    (hb : createdBound b ns) : createdBound b2 ns :=
  fun n hn p hp => le_trans (hb n hn p hp) h

lemma createdBound_cons {b : ℕ} {n : Node} {rest : List Node} :
    createdBound b (n :: rest)
      ↔ (∀ p ∈ n.queue, p.created_slot ≤ b) ∧ createdBound b rest := by
  constructor
  · intro h
    exact ⟨h n (List.mem_cons_self n rest), fun a ha => h a (List.mem_cons_of_mem _ ha)⟩
  · rintro ⟨h1, h2⟩ a ha
    rcases List.mem_cons.mp ha with rfl | ha
    · exact h1
    · exact h2 a ha

lemma arrivalsPhase_createdBound (rng : Rng) (prob : ℚ) (slot : ℕ) :
    ∀ (ns : List Node) (i : ℕ), createdBound slot ns →
      createdBound slot (arrivalsPhase rng prob slot ns i).1 := by
  intro ns
  induction ns with
  | nil =>
      intro i h n hn
      simp [arrivalsPhase] at hn
  | cons n rest ih =>
      intro i h
      rw [createdBound_cons] at h
      have he : (arrivalsPhase rng prob slot (n :: rest) i).1
          = (if rng.floats i < prob then schedule_new_packet slot n else n)
              :: (arrivalsPhase rng prob slot rest (i + 1)).1 := rfl
      rw [he, createdBound_cons]
      refine ⟨?_, ih (i + 1) h.2⟩
      by_cases hc : rng.floats i < prob
      · rw [if_pos hc]
        intro p hp
        have hp2 : p ∈ n.queue ∨ p = ⟨slot, 0, 0⟩ := by simpa [schedule_new_packet] using hp
        rcases hp2 with hp1 | rfl
        · exact h.1 p hp1
        · simp
      · rw [if_neg hc]
        exact h.1

lemma successPhase_createdBound (slot b : ℕ) : ∀ ns : List Node,
    createdBound b ns → createdBound b (successPhase slot ns).1 := by
  intro ns
  induction ns with
  | nil =>
      intro h n hn
      simp [successPhase] at hn
  | cons n rest ih =>
      obtain ⟨idn, nq⟩ := n
      intro h
      rw [createdBound_cons] at h
      cases nq with
      | nil =>
          have he : (successPhase slot ((⟨idn, []⟩ : Node) :: rest)).1
              = ⟨idn, []⟩ :: (successPhase slot rest).1 := rfl
          rw [he, createdBound_cons]
          exact ⟨h.1, ih h.2⟩
      | cons p q =>
          by_cases hb : p.backoff = 0
          · have he : (successPhase slot ((⟨idn, p :: q⟩ : Node) :: rest)).1
                = ⟨idn, q⟩ :: rest := by simp [successPhase, hb]
            rw [he, createdBound_cons]
            exact ⟨fun p2 hp2 => h.1 p2 (List.mem_cons_of_mem p hp2), h.2⟩
          · have he : (successPhase slot ((⟨idn, p :: q⟩ : Node) :: rest)).1
                = ⟨idn, p :: q⟩ :: (successPhase slot rest).1 := by simp [successPhase, hb]
            rw [he, createdBound_cons]
            exact ⟨h.1, ih h.2⟩

lemma collisionPhase_createdBound (rng : Rng) (m b : ℕ) : ∀ (ns : List Node) (i : ℕ),
    createdBound b ns → createdBound b (collisionPhase rng m ns i).1 := by
  intro ns
  induction ns with
  | nil =>
      intro i h n hn
      simp [collisionPhase] at hn
  | cons n rest ih =>
      obtain ⟨idn, nq⟩ := n
      intro i h
      rw [createdBound_cons] at h
      cases nq with
      | nil =>
          rw [collisionPhase_cons_empty]
          rw [show ((⟨idn, []⟩ : Node) :: (collisionPhase rng m rest i).1,
              (collisionPhase rng m rest i).2).1
            = (⟨idn, []⟩ : Node) :: (collisionPhase rng m rest i).1 from rfl]
          rw [createdBound_cons]
          exact ⟨h.1, ih i h.2⟩
      | cons p q =>
          by_cases hb : p.backoff = 0
          · rw [collisionPhase_cons_ready rng m idn p q rest i hb]
            rw [show ((⟨idn, on_collision m (rng.nats i) p :: q⟩ : Node)
                  :: (collisionPhase rng m rest
                      (i + if 1 < 2 ^ min (p.attempts + 1) m then 1 else 0)).1,
                (collisionPhase rng m rest
                   (i + if 1 < 2 ^ min (p.attempts + 1) m then 1 else 0)).2).1
              = (⟨idn, on_collision m (rng.nats i) p :: q⟩ : Node)
                  :: (collisionPhase rng m rest
                      (i + if 1 < 2 ^ min (p.attempts + 1) m then 1 else 0)).1 from rfl]
            rw [createdBound_cons]
            refine ⟨?_, ih _ h.2⟩
            intro p2 hp2
            rcases List.mem_cons.mp hp2 with rfl | hp3
            · exact h.1 p (List.mem_cons_self p q)
            · exact h.1 p2 (List.mem_cons_of_mem p hp3)
          · rw [collisionPhase_cons_wait rng m idn p q rest i hb]
            rw [show ((⟨idn, p :: q⟩ : Node) :: (collisionPhase rng m rest i).1,
                (collisionPhase rng m rest i).2).1
              = (⟨idn, p :: q⟩ : Node) :: (collisionPhase rng m rest i).1 from rfl]
            rw [createdBound_cons]
            exact ⟨h.1, ih i h.2⟩

lemma tick_backoff_createdBound {b : ℕ} {ns : List Node}
    (h : createdBound b ns) : createdBound b (ns.map tick_backoff) := by
  intro n2 hn2 p hp
  rcases List.mem_map.mp hn2 with ⟨n, hn, rfl⟩
  obtain ⟨idn, nq⟩ := n
  cases nq with
  | nil =>
      simp [tick_backoff] at hp
  | cons p0 q =>
      by_cases hb : 0 < p0.backoff
      · have he : (tick_backoff ⟨idn, p0 :: q⟩).queue
            = { p0 with backoff := p0.backoff - 1 } :: q := by simp [tick_backoff, hb]
        rw [he] at hp
        rcases List.mem_cons.mp hp with rfl | hp2
        · exact h _ hn p0 (List.mem_cons_self p0 q)
        · exact h _ hn p (List.mem_cons_of_mem p0 hp2)
      · have he : tick_backoff ⟨idn, p0 :: q⟩ = ⟨idn, p0 :: q⟩ := by simp [tick_backoff, hb]
        rw [he] at hp
        exact h _ hn p hp

lemma successPhase_delays_ge_one (slot : ℕ) : ∀ ns : List Node,
    createdBound slot ns → ∀ d ∈ (successPhase slot ns).2, 1 ≤ d := by
  intro ns
  induction ns with
  | nil =>
      intro h d hd
      simp [successPhase] at hd
  | cons n rest ih =>
      obtain ⟨idn, nq⟩ := n
      intro h
      rw [createdBound_cons] at h
      cases nq with
      | nil =>
          have he : (successPhase slot ((⟨idn, []⟩ : Node) :: rest)).2
              = (successPhase slot rest).2 := rfl
          rw [he]
          exact ih h.2
      | cons p q =>
          by_cases hb : p.backoff = 0
          · have he : (successPhase slot ((⟨idn, p :: q⟩ : Node) :: rest)).2
                = [(slot : ℤ) - (p.created_slot : ℤ) + 1] := by simp [successPhase, hb]
            rw [he]
            intro d hd
            rcases List.mem_singleton.mp hd with rfl
            have hc : p.created_slot ≤ slot := h.1 p (List.mem_cons_self p q)
            omega
          · have he : (successPhase slot ((⟨idn, p :: q⟩ : Node) :: rest)).2
                = (successPhase slot rest).2 := by simp [successPhase, hb]
            rw [he]
            exact ih h.2

lemma slotStep_createdBound (cfg : Config) (rng : Rng) (slot : ℕ) (s : SimState)
    (h : createdBound slot s.nodes) :
    createdBound slot (slotStep cfg rng slot s).nodes := by
  have h1 := arrivalsPhase_createdBound rng cfg.arrival_prob slot s.nodes s.ridx h
  show createdBound slot
    (((resolveSlot rng cfg.max_backoff_exp slot
        (arrivalsPhase rng cfg.arrival_prob slot s.nodes s.ridx).1
        (arrivalsPhase rng cfg.arrival_prob slot s.nodes s.ridx).2 s.stats).1).map tick_backoff)
  apply tick_backoff_createdBound
  by_cases h0 : (((arrivalsPhase rng cfg.arrival_prob slot s.nodes s.ridx).1).filter
      has_ready).length = 0
  · rw [resolveSlot_of_none _ _ _ _ _ _ h0]
    exact h1
  · by_cases h2 : (((arrivalsPhase rng cfg.arrival_prob slot s.nodes s.ridx).1).filter
        has_ready).length = 1
    · rw [resolveSlot_of_one _ _ _ _ _ _ h2]
      exact successPhase_createdBound slot slot _ h1
    · rw [resolveSlot_of_many _ _ _ _ _ _ (by omega)]
      exact collisionPhase_createdBound rng cfg.max_backoff_exp slot _ _ h1

lemma slotStep_delays_ge (cfg : Config) (rng : Rng) (slot : ℕ) (s : SimState)
    (h : createdBound slot s.nodes) (hd : ∀ d ∈ s.stats.delays, 1 ≤ d) :
    ∀ d ∈ (slotStep cfg rng slot s).stats.delays, 1 ≤ d := by
  have h1 := arrivalsPhase_createdBound rng cfg.arrival_prob slot s.nodes s.ridx h
  show ∀ d ∈ (resolveSlot rng cfg.max_backoff_exp slot
      (arrivalsPhase rng cfg.arrival_prob slot s.nodes s.ridx).1
      (arrivalsPhase rng cfg.arrival_prob slot s.nodes s.ridx).2 s.stats).2.1.delays, 1 ≤ d
  by_cases h0 : (((arrivalsPhase rng cfg.arrival_prob slot s.nodes s.ridx).1).filter
      has_ready).length = 0
  · rw [resolveSlot_of_none _ _ _ _ _ _ h0]
    exact hd
  · by_cases h2 : (((arrivalsPhase rng cfg.arrival_prob slot s.nodes s.ridx).1).filter
        has_ready).length = 1
    · rw [resolveSlot_of_one _ _ _ _ _ _ h2]
      intro d hdm
      rcases List.mem_append.mp hdm with h3 | h3
      · exact hd d h3
      · exact successPhase_delays_ge_one slot _ h1 d h3
    · rw [resolveSlot_of_many _ _ _ _ _ _ (by omega)]
      exact hd

lemma runFrom_delays_ge (cfg : Config) (rng : Rng) : ∀ (k slot : ℕ) (s : SimState),
    createdBound slot s.nodes → (∀ d ∈ s.stats.delays, 1 ≤ d) →
    ∀ d ∈ (runFrom cfg rng slot k s).stats.delays, 1 ≤ d := by
  intro k
  induction k with
  | zero =>
      intro slot s h hd
      simpa [runFrom] using hd
  | succ k ih =>
      intro slot s h hd
      simp only [runFrom]
      exact ih (slot + 1) (slotStep cfg rng slot s)
        (createdBound_mono (Nat.le_succ slot) (slotStep_createdBound cfg rng slot s h))
        (slotStep_delays_ge cfg rng slot s h hd)

/-- Claim C9: every recorded delay is at least 1.  A success of a packet with
creation slot `c` recorded in slot `s` contributes exactly `s - c + 1`, and
the run invariant that packets are never created in the future (`c ≤ s`)
forces the floor. -/
theorem delay_floor :
    (∀ (cfg : Config) (rng : Rng) (k : ℕ) (d : ℤ),
        d ∈ (runFrom cfg rng 1 k (initState cfg)).stats.delays → 1 ≤ d)
    ∧ (∀ (slot idn : ℕ) (p : Packet) (q : List Packet) (rest : List Node),
        p.backoff = 0 →
        (successPhase slot ((⟨idn, p :: q⟩ : Node) :: rest)).2
          = [(slot : ℤ) - (p.created_slot : ℤ) + 1]) := by
  constructor
  · intro cfg rng k d hd
    refine runFrom_delays_ge cfg rng k 1 (initState cfg) ?_ ?_ d hd
    · intro n hn p hp
      simp [initState] at hn
      obtain ⟨i, hi, rfl⟩ := hn
      exact absurd hp (List.not_mem_nil p)
    · intro d2 hd2
      simp [initState] at hd2
  · intro slot idn p q rest hb
    simp [successPhase, hb]

/-- Witness for C9: a one-node run records the delay 1, and the success
formula at a concrete ready packet. -/
theorem delay_floor_witness :
    ((1 : ℤ) ∈ (runFrom cfgOneOne rngZero 1 1 (initState cfgOneOne)).stats.delays
      ∧ (1 : ℤ) ≤ 1)
    ∧ (successPhase 3 [(⟨0, [⟨2, 5, 0⟩]⟩ : Node)]).2 = [(3 : ℤ) - ((2 : ℕ) : ℤ) + 1] :=
  ⟨⟨by decide, delay_floor.1 cfgOneOne rngZero 1 1 (by decide)⟩,
   delay_floor.2 3 0 ⟨2, 5, 0⟩ [] [] rfl⟩

/-- Claim C8: a summary returned by `simulate_slots` satisfies
`throughput = successes / slots` and
`collision_rate = collisions / (slots - empty)` with value 0 when the
denominator is 0, and its `avg_delay_slots` is the explicit no-data value
`none` exactly when there were zero successes — never a runtime fault (the
simulator returns a summary for every positive slot count). -/
theorem summary_formula_contract :
    (∀ (cfg : Config) (rng : Rng), 0 < cfg.num_slots → (simulate_slots cfg rng).isOk = true)
    ∧ (∀ (cfg : Config) (rng : Rng) (s : Summary), simulate_slots cfg rng = Except.ok s →
        s.slots = cfg.num_slots
        ∧ s.throughput_per_slot = (s.successes : ℚ) / (s.slots : ℚ)
        ∧ s.collision_rate_given_activity
            = (if 0 < (s.slots : ℤ) - (s.empty_slots : ℤ)
               then (s.collisions : ℚ) / (((s.slots : ℤ) - (s.empty_slots : ℤ) : ℤ) : ℚ)
               else 0)
        ∧ (s.avg_delay_slots = none ↔ s.successes = 0)) := by
  constructor
  · intro cfg rng h
    have h0 : cfg.num_slots ≠ 0 := by omega
    simp [simulate_slots, h0, Except.isOk, Except.toBool]
  · intro cfg rng s hs
    by_cases h0 : cfg.num_slots = 0
    · simp [simulate_slots, h0] at hs
    · simp only [simulate_slots, if_neg h0, Except.ok.injEq] at hs
      subst hs
      refine ⟨rfl, rfl, rfl, ?_⟩
      have hlen := runFrom_delays_len cfg rng cfg.num_slots 1 (initState cfg) rfl
      rcases hDel : (runFrom cfg rng 1 cfg.num_slots (initState cfg)).stats.delays
        with _ | ⟨a, l⟩
      · rw [hDel] at hlen
        simp [hDel, ← hlen]
      · rw [hDel] at hlen
        simp only [hDel, List.isEmpty_cons, if_false]
        simp only [List.length_cons] at hlen
        constructor
        · intro hnone
          exact absurd hnone (by simp)
        · intro hz
          omega

/-- Witness for C8: the summary of a zero-node one-slot run satisfies every
formula of the contract, with `avg_delay_slots = none` for its zero
successes. -/
theorem summary_formula_contract_witness :
    (simulate_slots ⟨0, 1, mkRat 1 2, 1⟩ rngZero).isOk = true
    ∧ sampleSummary.slots = 1
    ∧ sampleSummary.throughput_per_slot
        = (sampleSummary.successes : ℚ) / (sampleSummary.slots : ℚ)
    ∧ sampleSummary.collision_rate_given_activity
        = (if 0 < (sampleSummary.slots : ℤ) - (sampleSummary.empty_slots : ℤ)
           then (sampleSummary.collisions : ℚ)
              / (((sampleSummary.slots : ℤ) - (sampleSummary.empty_slots : ℤ) : ℤ) : ℚ)
           else 0)
    ∧ (sampleSummary.avg_delay_slots = none ↔ sampleSummary.successes = 0) := by
  have hE : simulate_slots ⟨0, 1, mkRat 1 2, 1⟩ rngZero = Except.ok sampleSummary := by
    norm_num [simulate_slots, runFrom, slotStep, arrivalsPhase, resolveSlot, initState,
      classify, sampleSummary]
  have h2 := summary_formula_contract.2 ⟨0, 1, mkRat 1 2, 1⟩ rngZero sampleSummary hE
  exact ⟨summary_formula_contract.1 ⟨0, 1, mkRat 1 2, 1⟩ rngZero (by decide),
    h2.1, h2.2.1, h2.2.2.1, h2.2.2.2⟩
